import Mathlib

set_option maxRecDepth 8000

/-!
# Verification of the console-manager / adaptive-performance module

Shallow embedding of `src/website-main/htdocs/js/console-manager.js`
(classes `ConsoleManager` and `AdaptivePerformanceSystem`) and of the
behaviours the specification claims about them.

Modelling conventions:
* JS numbers that only ever hold integers are `ℕ`/`ℤ`; fractional
  multipliers (`0.8`, `1.5`, ...) are exact rationals `ℚ` (all the
  literals involved are dyadic, so JS doubles compute them exactly).
* `Math.round` is Mathlib's `round : ℚ → ℤ` (both are `⌊x + 1/2⌋`).
* The mutable class instances become explicit state records
  (`CMState`, `APSState`) threaded through the methods.
* An async operation handed to the retry helper becomes a function
  from the attempt number (1-based) to `Except E A`; the promise
  rejection value of `executeWithRetry` is `Option E`, with `none`
  standing for the JS `undefined` that the uninitialised `lastError`
  holds when the loop body never runs.
-/

/-- JS `String.prototype.startsWith` on character lists:
`startsWithL pat s` holds when `s` begins with `pat`. -/
def startsWithL : List Char → List Char → Bool
  | [], _ => true
  | _ :: _, [] => false
  | a :: pat, b :: s => a = b && startsWithL pat s

/-- Does `pat` occur (contiguously) inside `s`? -/
def occursIn (pat : List Char) : List Char → Bool
  | [] => startsWithL pat []
  | c :: rest => startsWithL pat (c :: rest) || occursIn pat rest

/-- JS `msg.includes(pat)`. -/
def jsIncludes (msg pat : String) : Bool :=
  occursIn pat.toList msg.toList

/-! ## AdaptivePerformanceSystem: classification enums and state -/

/-- Field `this.networkSpeed`: always one of the strings `'fast' | 'normal' | 'slow'`. -/
inductive NetworkSpeed where
  | fast
  | normal
  | slow
  deriving DecidableEq, Repr

/-- Field `this.deviceCapability`: always one of `'high' | 'medium' | 'low'`. -/
inductive DeviceCapability where
  | high
  | medium
  | low
  deriving DecidableEq, Repr

/-- One entry of `this.performanceMetrics` (the object built by
`recordMetric`, `timestamp` included). -/
structure Metric where
  type : String
  name : String
  duration : ℚ
  size : ℕ
  timestamp : ℤ
  deriving DecidableEq, Repr

/-- The mutable fields of an `AdaptivePerformanceSystem` instance. -/
structure APSState where
  networkSpeed : NetworkSpeed
  deviceCapability : DeviceCapability
  performanceMetrics : List Metric
  deriving DecidableEq, Repr

/-- Constructor defaults: `networkSpeed = 'normal'`,
`deviceCapability = 'medium'`, `performanceMetrics = []`. -/
def APSState.initial : APSState :=
  { networkSpeed := .normal, deviceCapability := .medium, performanceMetrics := [] }

/-- Lookup in `this.baseTimeouts`: `some` on the nine known keys, `none`
(JS `undefined`) otherwise. -/
def baseTimeouts (operation : String) : Option ℕ :=
  if operation = "loginCheck" then some 8000
  else if operation = "userFetch" then some 8000
  else if operation = "warningPanel" then some 5000
  else if operation = "autoCancel" then some 5000
  else if operation = "bookingsLoad" then some 15000
  else if operation = "notifications" then some 5000
  else if operation = "firebaseUser" then some 45000
  else if operation = "debounce" then some 300
  else if operation = "scrollDelay" then some 150
  else none

/-- Field `this.retryAttempts` (the default `maxAttempts`). -/
def retryAttempts : ℕ := 3

/-- Field `this.retryBackoffMultiplier`. -/
def retryBackoffMultiplier : ℚ := 1.5

/-- Field `this.maxMetricsHistory`. -/
def maxMetricsHistory : ℕ := 100

/-- The `{'fast': 0.8, 'normal': 1.0, 'slow': 2.0}` lookup in `getTimeout`
(total on the enum, so the `|| 1.0` default is never consulted). -/
def networkMultiplier : NetworkSpeed → ℚ
  | .fast => 0.8
  | .normal => 1.0
  | .slow => 2.0

/-- The `{'high': 0.8, 'medium': 1.0, 'low': 1.5}` lookup in `getTimeout`. -/
def deviceMultiplier : DeviceCapability → ℚ
  | .high => 0.8
  | .medium => 1.0
  | .low => 1.5

/-- Method `getTimeout(operation)`: base timeout (default 5000 for unknown keys,
via `|| 5000`) scaled by the network and device multipliers, then
`Math.round`ed. -/
def getTimeout (st : APSState) (operation : String) : ℤ :=
  let baseTimeout : ℕ := (baseTimeouts operation).getD 5000
  let nm : ℚ := networkMultiplier st.networkSpeed
  let dm : ℚ := deviceMultiplier st.deviceCapability
  round ((baseTimeout : ℚ) * nm * dm)

theorem baseTimeouts_bookingsLoad : baseTimeouts "bookingsLoad" = some 15000 := by decide

example : getTimeout APSState.initial "bookingsLoad" = 15000 := by
  simp only [getTimeout, baseTimeouts_bookingsLoad, Option.getD_some, APSState.initial,
    networkMultiplier, deviceMultiplier]
  norm_num

example : getTimeout { APSState.initial with networkSpeed := .slow, deviceCapability := .low }
    "bookingsLoad" = 45000 := by
  simp only [getTimeout, baseTimeouts_bookingsLoad, Option.getD_some,
    networkMultiplier, deviceMultiplier]
  norm_num [round_eq]

/-! ## AdaptivePerformanceSystem: recordMetric -/

/-- Method `recordMetric(metric)`: push `{...metric, timestamp: Date.now()}` and,
when the history exceeds `maxMetricsHistory`, `shift()` the oldest entry
off the front.  `now` stands for `Date.now()`. -/
def recordMetric (st : APSState) (metric : Metric) (now : ℤ) : APSState :=
  let metrics := st.performanceMetrics ++ [{ metric with timestamp := now }]
  { st with performanceMetrics :=
      if metrics.length > maxMetricsHistory then metrics.tail else metrics }

/-! ## AdaptivePerformanceSystem: retry with backoff

`executeWithRetry(operation, operationName, maxAttempts)` is the JS loop

    for (let attempt = 1; attempt <= maxAttempts; attempt++) { ... }

The loop is embedded with an explicit count `remaining` of iterations
left (`remaining = maxAttempts - attempt + 1` at every entry, so the
source's `attempt < maxAttempts` test is `remaining ≥ 2` here, and a
negative or zero JS `maxAttempts` gives `remaining = 0` at the top).
The outcome records, besides the settled value, the trace the claims
talk about: how often `operation()` was invoked and which backoff
delays were awaited between attempts. -/

/-- The delay `Math.round(1000 * Math.pow(1.5, attempt - 1))` computed
before retrying after a failed `attempt`. -/
def backoffDelay (attempt : ℕ) : ℤ :=
  round ((1000 : ℚ) * retryBackoffMultiplier ^ (attempt - 1))

/-- Settled value of `executeWithRetry` plus its visible trace. -/
structure RetryOutcome (E A : Type) where
  result : Except (Option E) A
  calls : ℕ
  delays : List ℤ
  deriving Repr

/-- Body of the retry loop.  `op k` is what the `k`-th invocation of
`operation()` settles to; `lastError` mirrors the JS `lastError`
variable (`none` = still `undefined`). -/
def retryAux {E A : Type} (op : ℕ → Except E A) (attempt : ℕ) (lastError : Option E) :
    ℕ → RetryOutcome E A
  | 0 => ⟨.error lastError, 0, []⟩
  | remaining + 1 =>
    match op attempt with
    | .ok v => ⟨.ok v, 1, []⟩
    | .error e =>
      match remaining with
      | 0 => ⟨.error (some e), 1, []⟩
      | r + 1 =>
        let rest := retryAux op (attempt + 1) (some e) (r + 1)
        ⟨rest.result, rest.calls + 1, backoffDelay attempt :: rest.delays⟩

/-- Method `executeWithRetry(operation, name, maxAttempts)`.  `maxAttempts` is
`ℤ` because the JS caller may pass any number; the loop runs
`max maxAttempts 0` times. -/
def executeWithRetry {E A : Type} (op : ℕ → Except E A) (maxAttempts : ℤ) : RetryOutcome E A :=
  retryAux op 1 none maxAttempts.toNat

/-! ## AdaptivePerformanceSystem: timeout race -/

/-- How the promise returned by `executeWithTimeout` settles. -/
inductive TimeoutOutcome (E A : Type) where
  | settled : Except E A → TimeoutOutcome E A
  | timedOut : String → TimeoutOutcome E A

/-- A caller-supplied async operation for the race: the time (ms) at
which its promise settles and what it settles to. -/
structure AsyncOp (E A : Type) where
  settleTime : ℕ
  outcome : Except E A

/-- The rejection message built by the timer branch:
`` `${operationName} timeout after ${timeout}ms` ``. -/
def timeoutMessage (operationName : String) (timeout : ℤ) : String :=
  s!"{operationName} timeout after {timeout}ms"

/-- Method `executeWithTimeout(operation, operationName)`: `Promise.race` of the
operation against `setTimeout(..., getTimeout(operationName))`.  The race
is decided by which timer fires first; the tie (both at the same
millisecond) is resolved in the operation's favour here, and the theorems
below only rely on the strict cases. -/
def executeWithTimeout {E A : Type} (st : APSState) (op : AsyncOp E A)
    (operationName : String) : TimeoutOutcome E A :=
  let timeout := getTimeout st operationName
  if (op.settleTime : ℤ) ≤ timeout then .settled op.outcome
  else .timedOut (timeoutMessage operationName timeout)

/-! ## AdaptivePerformanceSystem: network detection -/

/-- The part of `navigator.connection` that `detectNetworkSpeed` reads. -/
structure Connection where
  effectiveType : String
  downlink : ℚ

/-- The part of `window.performance.timing` that the fallback reads. -/
structure Timing where
  loadEventEnd : ℤ
  navigationStart : ℤ

/-- Method `detectNetworkSpeed()` as a function of its inputs: the (possibly
absent) connection API, the (possibly absent) navigation-timing API, and
the current `this.networkSpeed` (which the method leaves untouched when
neither branch assigns — an unrecognised `effectiveType`, or both APIs
absent). -/
def detectNetworkSpeed (conn : Option Connection) (timing : Option Timing)
    (networkSpeed : NetworkSpeed) : NetworkSpeed :=
  match conn with
  | some c =>
    if c.effectiveType = "4g" ∨ c.effectiveType = "wifi" then .fast
    else if c.effectiveType = "3g" then .normal
    else if c.effectiveType = "2g" ∨ c.effectiveType = "slow-2g" then .slow
    else networkSpeed
  | none =>
    match timing with
    | some t =>
      let pageLoadTime := t.loadEventEnd - t.navigationStart
      if pageLoadTime > 3000 then .slow
      else if pageLoadTime > 1500 then .normal
      else .fast
    | none => networkSpeed

/-! ## ConsoleManager -/

/-- Field `this.debugCategories`. -/
structure DebugCategories where
  booking : Bool
  auth : Bool
  firebase : Bool
  ui : Bool
  all : Bool
  deriving DecidableEq, Repr

/-- The mutable fields of the `ConsoleManager` instance.
`suppressedErrors` is a JS `Set` of key strings, modelled as the list of
keys in insertion order (membership is all that is ever queried). -/
structure CMState where
  suppressedErrors : List String
  productionMode : Bool
  debugCategories : DebugCategories
  suppressPatterns : List String
  deriving DecidableEq, Repr

/-- The constructor's `this.suppressPatterns` array. -/
def initSuppressPatterns : List String :=
  ["Tracking Prevention",
   "Permissions policy violation",
   "accelerometer",
   "streetview.js",
   "common.js",
   "init_embed.js",
   "Permission denied",
   "Error getting bookings",
   "Error getting users",
   "absences is not defined",
   "firebase-db.js",
   "Google Maps"]

/-- The state right after `new ConsoleManager()`. -/
def CMState.initial : CMState :=
  { suppressedErrors := []
    productionMode := true
    debugCategories := ⟨false, false, false, false, false⟩
    suppressPatterns := initSuppressPatterns }

/-- The `for (const pattern of self.suppressPatterns)` loop shared by the
`console.error` and `console.warn` overrides, abstracted over the key
derivation (`pattern.substring(0, 20)` resp. `'w-' + ...`).  Returns the
updated `suppressedErrors` and whether the message is passed through to
the original console function (`true`) or dropped (`false`).  An early
`return` keeps the keys added so far — the JS `Set` was already mutated. -/
def suppressLoop (keyFn : String → String) (suppressed : List String)
    (patterns : List String) (msg : String) : List String × Bool :=
  match patterns with
  | [] => (suppressed, true)
  | p :: ps =>
    if jsIncludes msg p then
      let key := keyFn p
      if key ∈ suppressed then (suppressed, false)
      else suppressLoop keyFn (key :: suppressed) ps msg
    else suppressLoop keyFn suppressed ps msg

/-- Key used by the `console.error` override: `pattern.substring(0, 20)`. -/
def errorKey (pattern : String) : String := pattern.take 20

/-- Key used by the `console.warn` override: `'w-' + pattern.substring(0, 20)`. -/
def warnKey (pattern : String) : String := "w-" ++ pattern.take 20

/-- The overridden `console.error(msg)`: new state and whether the call
reached `originalConsole.error` with its arguments verbatim. -/
def consoleError (st : CMState) (msg : String) : CMState × Bool :=
  let r := suppressLoop errorKey st.suppressedErrors st.suppressPatterns msg
  ({ st with suppressedErrors := r.1 }, r.2)

/-- The overridden `console.warn(msg)`. -/
def consoleWarn (st : CMState) (msg : String) : CMState × Bool :=
  let r := suppressLoop warnKey st.suppressedErrors st.suppressPatterns msg
  ({ st with suppressedErrors := r.1 }, r.2)

/-- Method `enableVerboseMode()`. -/
def enableVerboseMode (st : CMState) : CMState :=
  { st with
    productionMode := false
    debugCategories := { st.debugCategories with all := true }
    suppressedErrors := []
    suppressPatterns := [] }

example : (consoleError CMState.initial "Tracking Prevention blocked x").2 = true := by decide
example :
    (consoleError (consoleError CMState.initial "Tracking Prevention blocked x").1
      "Tracking Prevention blocked x").2 = false := by decide

/-! ## Helper lemmas about the retry loop -/

/-- Splitting off the head of a shifted `backoffDelay` range. -/
theorem backoffDelay_range_shift (a r : ℕ) :
    ((List.range (r + 1)).map fun i => backoffDelay (a + i))
      = backoffDelay a :: ((List.range r).map fun i => backoffDelay (a + 1 + i)) := by
  rw [List.range_succ_eq_map, List.map_cons, List.map_map]
  have hfun : ((fun i => backoffDelay (a + i)) ∘ Nat.succ)
      = fun i => backoffDelay (a + 1 + i) := by
    funext i
    simp only [Function.comp]
    congr 1
    omega
  rw [Nat.add_zero, hfun]

/-- On an operation that fails at every attempt, the loop runs all its
iterations, settles on the error of the final attempt, and delays after
every attempt but the last. -/
theorem retryAux_allFail {E A : Type} (op : ℕ → Except E A) (err : ℕ → E)
    (h : ∀ k, op k = .error (err k)) :
    ∀ (r a : ℕ) (l : Option E),
      retryAux op a l (r + 1)
        = ⟨.error (some (err (a + r))), r + 1,
           (List.range r).map fun i => backoffDelay (a + i)⟩ := by
  intro r
  induction r with
  | zero =>
    intro a l
    simp [retryAux, h a]
  | succ r ih =>
    intro a l
    rw [backoffDelay_range_shift]
    simp only [retryAux, h a, ih (a + 1)]
    have : a + 1 + r = a + (r + 1) := by omega
    rw [this]

/-- C2 witness and others use this concrete always-failing operation. -/
def alwaysFailOp (k : ℕ) : Except ℕ ℕ := .error k

/-- C2: an operation that fails on every invocation, run with
`maxAttempts = N ≥ 1`, is invoked exactly `N` times and the returned
promise rejects with the error of the `N`-th invocation (errors of the
earlier invocations are not the rejection value). -/
theorem executeWithRetry_allFail {E A : Type} (op : ℕ → Except E A) (err : ℕ → E)
    (h : ∀ k, op k = .error (err k)) (N : ℕ) (hN : 1 ≤ N) :
    (executeWithRetry op (N : ℤ)).calls = N ∧
    (executeWithRetry op (N : ℤ)).result = .error (some (err N)) := by
  obtain ⟨r, rfl⟩ : ∃ r, N = r + 1 := ⟨N - 1, by omega⟩
  have htn : ((r + 1 : ℕ) : ℤ).toNat = r + 1 := by simp
  rw [executeWithRetry, htn, retryAux_allFail op err h r 1 none]
  exact ⟨rfl, by rw [Nat.add_comm 1 r]⟩

/-- Witness for C2 at `N = 2` and an operation failing with its attempt
number: two invocations, rejection with the second error. -/
theorem executeWithRetry_allFail_witness :
    alwaysFailOp 2 = .error (id 2) ∧ 1 ≤ 2 ∧
    (executeWithRetry alwaysFailOp ((2 : ℕ) : ℤ)).calls = 2 ∧
    (executeWithRetry alwaysFailOp ((2 : ℕ) : ℤ)).result = .error (some 2) :=
  ⟨rfl, by norm_num,
   executeWithRetry_allFail alwaysFailOp id (fun _ => rfl) 2 (by norm_num)⟩

/-- C3: an operation failing on attempts 1 and 2 and succeeding on
attempt 3, run with `maxAttempts = 3`, settles on the third attempt's
value after exactly three invocations and exactly the two inter-attempt
backoff delays (none after the final attempt). -/
theorem executeWithRetry_failTwiceThenSucceed {E A : Type} (op : ℕ → Except E A)
    (e₁ e₂ : E) (v : A)
    (h1 : op 1 = .error e₁) (h2 : op 2 = .error e₂) (h3 : op 3 = .ok v) :
    executeWithRetry op 3 = ⟨.ok v, 3, [backoffDelay 1, backoffDelay 2]⟩ ∧
    (executeWithRetry op 3).delays.length = 2 := by
  have : executeWithRetry op 3 = ⟨.ok v, 3, [backoffDelay 1, backoffDelay 2]⟩ := by
    show retryAux op 1 none 3 = _
    simp [retryAux, h1, h2, h3]
  exact ⟨this, by rw [this]; rfl⟩

/-- Concrete operation for the C3 witness: fails twice, then succeeds
with value 7. -/
def failTwiceOp (k : ℕ) : Except ℕ ℕ := if k ≥ 3 then .ok 7 else .error k

/-- Witness for C3 at the concrete `failTwiceOp`. -/
theorem executeWithRetry_failTwiceThenSucceed_witness :
    failTwiceOp 1 = .error 1 ∧ failTwiceOp 2 = .error 2 ∧ failTwiceOp 3 = .ok 7 ∧
    executeWithRetry failTwiceOp 3 = ⟨.ok 7, 3, [backoffDelay 1, backoffDelay 2]⟩ ∧
    (executeWithRetry failTwiceOp 3).delays.length = 2 :=
  ⟨rfl, rfl, rfl,
   (executeWithRetry_failTwiceThenSucceed failTwiceOp 1 2 7 rfl rfl rfl).1,
   (executeWithRetry_failTwiceThenSucceed failTwiceOp 1 2 7 rfl rfl rfl).2⟩

/-- C10: with `maxAttempts ≤ 0` the loop body never runs: the operation
is invoked zero times and the promise rejects with the JS `undefined`
still held by `lastError` (modelled as `none`). -/
theorem executeWithRetry_nonpositiveAttempts {E A : Type} (op : ℕ → Except E A)
    (maxAttempts : ℤ) (h : maxAttempts ≤ 0) :
    executeWithRetry op maxAttempts = ⟨.error none, 0, []⟩ := by
  rw [executeWithRetry, Int.toNat_of_nonpos h]
  rfl

/-- Witness for C10 at `maxAttempts = -1`. -/
theorem executeWithRetry_nonpositiveAttempts_witness :
    (-1 : ℤ) ≤ 0 ∧ executeWithRetry alwaysFailOp (-1) = ⟨.error none, 0, []⟩ :=
  ⟨by norm_num, executeWithRetry_nonpositiveAttempts alwaysFailOp (-1) (by norm_num)⟩

/-- C8: the inter-attempt delay after failed attempt `k+1` is
`Math.round(1000 · 1.5^k)` — in an all-failing run the delay list is
exactly those values for `k = 0, …, N-2` — and before rounding each
successive delay is `retryBackoffMultiplier = 1.5` times the previous. -/
theorem backoff_exponential {E A : Type} (op : ℕ → Except E A) (err : ℕ → E)
    (h : ∀ k, op k = .error (err k)) (N : ℕ) (hN : 1 ≤ N) :
    ((executeWithRetry op (N : ℤ)).delays
        = (List.range (N - 1)).map fun i => backoffDelay (i + 1)) ∧
    (∀ k : ℕ, backoffDelay (k + 1) = round ((1000 : ℚ) * (3 / 2) ^ k)) ∧
    (∀ k : ℕ, (1000 : ℚ) * retryBackoffMultiplier ^ (k + 1)
        = retryBackoffMultiplier * ((1000 : ℚ) * retryBackoffMultiplier ^ k)) := by
  refine ⟨?_, ?_, ?_⟩
  · obtain ⟨r, rfl⟩ : ∃ r, N = r + 1 := ⟨N - 1, by omega⟩
    have htn : ((r + 1 : ℕ) : ℤ).toNat = r + 1 := by simp
    rw [executeWithRetry, htn, retryAux_allFail op err h r 1 none]
    have hfun : (fun i => backoffDelay (1 + i)) = fun i : ℕ => backoffDelay (i + 1) := by
      funext i
      rw [Nat.add_comm]
    simp [hfun]
  · intro k
    have hm : retryBackoffMultiplier = 3 / 2 := by
      rw [retryBackoffMultiplier]
      norm_num
    rw [backoffDelay, hm, Nat.add_sub_cancel]
  · intro k
    ring

/-- Witness for C8 at `N = 3` and an operation failing with its attempt
number: two delays, the first of them `round(1000 · 1.5^0)`. -/
theorem backoff_exponential_witness :
    alwaysFailOp 1 = .error (id 1) ∧ 1 ≤ 3 ∧
    ((executeWithRetry alwaysFailOp ((3 : ℕ) : ℤ)).delays
        = (List.range 2).map fun i => backoffDelay (i + 1)) ∧
    backoffDelay (0 + 1) = round ((1000 : ℚ) * (3 / 2) ^ 0) ∧
    (1000 : ℚ) * retryBackoffMultiplier ^ (0 + 1)
        = retryBackoffMultiplier * ((1000 : ℚ) * retryBackoffMultiplier ^ 0) :=
  ⟨rfl, by norm_num,
   (backoff_exponential alwaysFailOp id (fun _ => rfl) 3 (by norm_num)).1,
   (backoff_exponential alwaysFailOp id (fun _ => rfl) 3 (by norm_num)).2.1 0,
   (backoff_exponential alwaysFailOp id (fun _ => rfl) 3 (by norm_num)).2.2 0⟩

/-! ## getTimeout, detectNetworkSpeed, executeWithTimeout, recordMetric -/

/-- Shared evaluation helper: the default state times out `bookingsLoad`
at its base 15000 ms. -/
theorem getTimeout_initial_bookingsLoad :
    getTimeout APSState.initial "bookingsLoad" = 15000 := by
  simp only [getTimeout, baseTimeouts_bookingsLoad, Option.getD_some, APSState.initial,
    networkMultiplier, deviceMultiplier]
  norm_num

/-- C1: `getTimeout` is the base timeout (5000 for unknown operations)
times the network multiplier (fast 0.8 / normal 1.0 / slow 2.0) times
the device multiplier (high 0.8 / medium 1.0 / low 1.5), rounded to the
nearest integer; in particular `bookingsLoad` uses base 15000, giving
the nine listed concrete values. -/
theorem getTimeout_spec (st : APSState) (operation : String) :
    getTimeout st operation
      = round ((((baseTimeouts operation).getD 5000 : ℕ) : ℚ)
          * networkMultiplier st.networkSpeed * deviceMultiplier st.deviceCapability) ∧
    networkMultiplier .fast = 0.8 ∧ networkMultiplier .normal = 1.0 ∧
    networkMultiplier .slow = 2.0 ∧
    deviceMultiplier .high = 0.8 ∧ deviceMultiplier .medium = 1.0 ∧
    deviceMultiplier .low = 1.5 ∧
    baseTimeouts "bookingsLoad" = some 15000 ∧
    (∀ ns dc m, getTimeout ⟨ns, dc, m⟩ "bookingsLoad"
        = round ((15000 : ℚ) * networkMultiplier ns * deviceMultiplier dc)) ∧
    getTimeout ⟨.fast, .high, []⟩ "bookingsLoad" = 9600 ∧
    getTimeout ⟨.fast, .medium, []⟩ "bookingsLoad" = 12000 ∧
    getTimeout ⟨.fast, .low, []⟩ "bookingsLoad" = 18000 ∧
    getTimeout ⟨.normal, .high, []⟩ "bookingsLoad" = 12000 ∧
    getTimeout ⟨.normal, .medium, []⟩ "bookingsLoad" = 15000 ∧
    getTimeout ⟨.normal, .low, []⟩ "bookingsLoad" = 22500 ∧
    getTimeout ⟨.slow, .high, []⟩ "bookingsLoad" = 24000 ∧
    getTimeout ⟨.slow, .medium, []⟩ "bookingsLoad" = 30000 ∧
    getTimeout ⟨.slow, .low, []⟩ "bookingsLoad" = 45000 := by
  refine ⟨rfl, rfl, rfl, rfl, rfl, rfl, rfl, baseTimeouts_bookingsLoad, ?_, ?_, ?_, ?_, ?_,
    ?_, ?_, ?_, ?_, ?_⟩
  · intro ns dc m
    simp [getTimeout, baseTimeouts_bookingsLoad]
  all_goals
    simp only [getTimeout, baseTimeouts_bookingsLoad, Option.getD_some,
      networkMultiplier, deviceMultiplier]
    norm_num [round_eq]

/-- C4: a connection reporting `effectiveType: '4g'` classifies the
network as fast and `'2g'` as slow; without the connection API the
classification falls back to the page-load-time estimate (over 3000 ms
slow, over 1500 ms normal, otherwise fast). -/
theorem detectNetworkSpeed_classification :
    (∀ (d : ℚ) (timing : Option Timing) (ns : NetworkSpeed),
        detectNetworkSpeed (some ⟨"4g", d⟩) timing ns = .fast) ∧
    (∀ (d : ℚ) (timing : Option Timing) (ns : NetworkSpeed),
        detectNetworkSpeed (some ⟨"2g", d⟩) timing ns = .slow) ∧
    (∀ (loadEnd navStart : ℤ) (ns : NetworkSpeed), loadEnd - navStart > 3000 →
        detectNetworkSpeed none (some ⟨loadEnd, navStart⟩) ns = .slow) ∧
    (∀ (loadEnd navStart : ℤ) (ns : NetworkSpeed),
        loadEnd - navStart ≤ 3000 → loadEnd - navStart > 1500 →
        detectNetworkSpeed none (some ⟨loadEnd, navStart⟩) ns = .normal) ∧
    (∀ (loadEnd navStart : ℤ) (ns : NetworkSpeed), loadEnd - navStart ≤ 1500 →
        detectNetworkSpeed none (some ⟨loadEnd, navStart⟩) ns = .fast) := by
  refine ⟨fun d timing ns => rfl, fun d timing ns => rfl, ?_, ?_, ?_⟩
  · intro loadEnd navStart ns h
    simp only [detectNetworkSpeed]
    rw [if_pos h]
  · intro loadEnd navStart ns h3 h1
    simp only [detectNetworkSpeed]
    rw [if_neg (by omega), if_pos (by omega)]
  · intro loadEnd navStart ns h
    simp only [detectNetworkSpeed]
    rw [if_neg (by omega), if_neg (by omega)]

/-- Witness for C4 at concrete connections and load times. -/
theorem detectNetworkSpeed_classification_witness :
    detectNetworkSpeed (some ⟨"4g", 10⟩) none .slow = .fast ∧
    detectNetworkSpeed (some ⟨"2g", 1⟩) none .fast = .slow ∧
    ((5000 : ℤ) - 0 > 3000 ∧ detectNetworkSpeed none (some ⟨5000, 0⟩) .fast = .slow) ∧
    ((2000 : ℤ) - 0 ≤ 3000 ∧ (2000 : ℤ) - 0 > 1500 ∧
      detectNetworkSpeed none (some ⟨2000, 0⟩) .fast = .normal) ∧
    ((1000 : ℤ) - 0 ≤ 1500 ∧ detectNetworkSpeed none (some ⟨1000, 0⟩) .slow = .fast) :=
  ⟨detectNetworkSpeed_classification.1 10 none .slow,
   detectNetworkSpeed_classification.2.1 1 none .fast,
   ⟨by norm_num, detectNetworkSpeed_classification.2.2.1 5000 0 .fast (by norm_num)⟩,
   ⟨by norm_num, by norm_num,
    detectNetworkSpeed_classification.2.2.2.1 2000 0 .fast (by norm_num) (by norm_num)⟩,
   ⟨by norm_num, detectNetworkSpeed_classification.2.2.2.2 1000 0 .slow (by norm_num)⟩⟩

/-- C7: `executeWithTimeout` races the operation against a
`getTimeout(operationName)` timer — an operation settling strictly first
yields its own result, a timer firing strictly first yields rejection
with the timeout error message. -/
theorem executeWithTimeout_race {E A : Type} (st : APSState) (op : AsyncOp E A)
    (operationName : String) :
    ((op.settleTime : ℤ) < getTimeout st operationName →
        executeWithTimeout st op operationName = .settled op.outcome) ∧
    (getTimeout st operationName < (op.settleTime : ℤ) →
        executeWithTimeout st op operationName
          = .timedOut (timeoutMessage operationName (getTimeout st operationName))) := by
  constructor
  · intro h
    rw [executeWithTimeout, if_pos (le_of_lt h)]
  · intro h
    rw [executeWithTimeout, if_neg (not_le.mpr h)]

/-- Witness for C7: on the default state `bookingsLoad` allows 15000 ms;
an operation settling at 0 ms wins the race, one settling at 20000 ms
loses it. -/
theorem executeWithTimeout_race_witness :
    ((0 : ℤ) < getTimeout APSState.initial "bookingsLoad" ∧
      executeWithTimeout APSState.initial ⟨0, (Except.ok 42 : Except Unit ℕ)⟩ "bookingsLoad"
        = .settled (Except.ok 42)) ∧
    (getTimeout APSState.initial "bookingsLoad" < (20000 : ℤ) ∧
      executeWithTimeout APSState.initial ⟨20000, (Except.ok 0 : Except Unit ℕ)⟩ "bookingsLoad"
        = .timedOut (timeoutMessage "bookingsLoad" 15000)) := by
  have h15 := getTimeout_initial_bookingsLoad
  constructor
  · exact ⟨by rw [h15]; norm_num,
      (executeWithTimeout_race APSState.initial ⟨0, Except.ok 42⟩ "bookingsLoad").1
        (by rw [h15]; norm_num)⟩
  · refine ⟨by rw [h15]; norm_num, ?_⟩
    have := (executeWithTimeout_race APSState.initial
      ⟨20000, (Except.ok 0 : Except Unit ℕ)⟩ "bookingsLoad").2 (by rw [h15]; norm_num)
    rwa [h15] at this

/-- C9: starting within the bound, `recordMetric` keeps the metrics
history at no more than `maxMetricsHistory = 100` entries — appending
the new metric and, exactly when the bound would be exceeded, dropping
the oldest entry. -/
theorem recordMetric_boundedHistory (st : APSState) (metric : Metric) (now : ℤ)
    (h : st.performanceMetrics.length ≤ maxMetricsHistory) :
    (recordMetric st metric now).performanceMetrics.length ≤ maxMetricsHistory ∧
    (st.performanceMetrics.length < maxMetricsHistory →
      (recordMetric st metric now).performanceMetrics
        = st.performanceMetrics ++ [{ metric with timestamp := now }]) ∧
    (st.performanceMetrics.length = maxMetricsHistory →
      (recordMetric st metric now).performanceMetrics
        = st.performanceMetrics.tail ++ [{ metric with timestamp := now }]) := by
  have h100 : maxMetricsHistory = 100 := rfl
  have hlen : (st.performanceMetrics ++ [{ metric with timestamp := now }]).length
      = st.performanceMetrics.length + 1 := by
    simp
  rcases lt_or_eq_of_le h with hlt | heq
  · have hcond : ¬ ((st.performanceMetrics ++ [{ metric with timestamp := now }]).length
        > maxMetricsHistory) := by
      rw [hlen]
      omega
    have hrm : (recordMetric st metric now).performanceMetrics
        = st.performanceMetrics ++ [{ metric with timestamp := now }] := by
      simp only [recordMetric]
      rw [if_neg hcond]
    refine ⟨?_, fun _ => hrm, fun habs => absurd habs (by omega)⟩
    rw [hrm, hlen]
    omega
  · have hne : st.performanceMetrics ≠ [] := by
      intro habs
      rw [habs, List.length_nil, h100] at heq
      omega
    obtain ⟨a, t, hat⟩ := List.exists_cons_of_ne_nil hne
    have hcond : (st.performanceMetrics ++ [{ metric with timestamp := now }]).length
        > maxMetricsHistory := by
      rw [hlen]
      omega
    have hrm : (recordMetric st metric now).performanceMetrics
        = st.performanceMetrics.tail ++ [{ metric with timestamp := now }] := by
      simp only [recordMetric]
      rw [if_pos hcond, hat]
      rfl
    refine ⟨?_, fun habs => absurd habs (by omega), fun _ => hrm⟩
    rw [hrm, hat]
    simp only [List.tail_cons, List.length_append, List.length_cons, List.length_nil]
    rw [hat, List.length_cons] at heq
    omega

/-- Witness for C9 at the empty history. -/
theorem recordMetric_boundedHistory_witness :
    APSState.initial.performanceMetrics.length ≤ maxMetricsHistory ∧
    (recordMetric APSState.initial ⟨"resource", "x", 1, 2, 0⟩ 5).performanceMetrics.length
      ≤ maxMetricsHistory :=
  ⟨by decide,
   (recordMetric_boundedHistory APSState.initial ⟨"resource", "x", 1, 2, 0⟩ 5 (by decide)).1⟩

/-! ## Helper lemmas about the suppression loop -/

/-- The loop never removes keys from the `Set`. -/
theorem suppressLoop_mono (keyFn : String → String) (msg : String) :
    ∀ (patterns : List String) (s : List String) (x : String),
      x ∈ s → x ∈ (suppressLoop keyFn s patterns msg).1 := by
  intro patterns
  induction patterns with
  | nil =>
    intro s x hx
    exact hx
  | cons p ps ih =>
    intro s x hx
    simp only [suppressLoop]
    by_cases hm : jsIncludes msg p
    · rw [if_pos hm]
      by_cases hk : keyFn p ∈ s
      · rw [if_pos hk]
        exact hx
      · rw [if_neg hk]
        exact ih (keyFn p :: s) x (List.mem_cons_of_mem _ hx)
    · rw [if_neg hm]
      exact ih s x hx

/-- When the keys of the patterns are pairwise distinct and none is
already recorded, the loop passes the message through and afterwards the
key of every matching pattern is recorded. -/
theorem suppressLoop_fresh (keyFn : String → String) (msg : String) :
    ∀ (patterns : List String) (s : List String),
      (patterns.map keyFn).Nodup → (∀ p ∈ patterns, keyFn p ∉ s) →
      (suppressLoop keyFn s patterns msg).2 = true ∧
      ∀ p ∈ patterns, jsIncludes msg p = true →
        keyFn p ∈ (suppressLoop keyFn s patterns msg).1 := by
  intro patterns
  induction patterns with
  | nil =>
    intro s _ _
    exact ⟨rfl, fun p hp => absurd hp (List.not_mem_nil p)⟩
  | cons p ps ih =>
    intro s hnd hfree
    rw [List.map_cons, List.nodup_cons] at hnd
    by_cases hm : jsIncludes msg p
    · have hk : keyFn p ∉ s := hfree p (List.mem_cons_self p ps)
      have hfree' : ∀ q ∈ ps, keyFn q ∉ keyFn p :: s := by
        intro q hq
        simp only [List.mem_cons, not_or]
        exact ⟨fun habs => hnd.1 (habs ▸ List.mem_map_of_mem keyFn hq),
               hfree q (List.mem_cons_of_mem p hq)⟩
      have hrec := ih (keyFn p :: s) hnd.2 hfree'
      have hloop : suppressLoop keyFn s (p :: ps) msg
          = suppressLoop keyFn (keyFn p :: s) ps msg := by
        simp only [suppressLoop]
        rw [if_pos hm, if_neg hk]
      refine ⟨hloop ▸ hrec.1, ?_⟩
      intro q hq hmq
      rw [hloop]
      rcases List.mem_cons.mp hq with rfl | hq'
      · exact suppressLoop_mono keyFn msg ps (keyFn q :: s) (keyFn q) (List.mem_cons_self _ _)
      · exact hrec.2 q hq' hmq
    · have hloop : suppressLoop keyFn s (p :: ps) msg = suppressLoop keyFn s ps msg := by
        simp only [suppressLoop]
        rw [if_neg hm]
      have hrec := ih s hnd.2 (fun q hq => hfree q (List.mem_cons_of_mem p hq))
      refine ⟨hloop ▸ hrec.1, ?_⟩
      intro q hq hmq
      rcases List.mem_cons.mp hq with rfl | hq'
      · exact absurd hmq (by simp [hm])
      · rw [hloop]
        exact hrec.2 q hq' hmq

/-- When some pattern matches and the key of every matching pattern is
already recorded, the loop drops the message and leaves the `Set`
unchanged. -/
theorem suppressLoop_suppressed (keyFn : String → String) (msg : String) :
    ∀ (patterns : List String) (s : List String),
      (∀ p ∈ patterns, jsIncludes msg p = true → keyFn p ∈ s) →
      (∃ p ∈ patterns, jsIncludes msg p = true) →
      suppressLoop keyFn s patterns msg = (s, false) := by
  intro patterns
  induction patterns with
  | nil =>
    intro s _ hex
    obtain ⟨p, hp, _⟩ := hex
    exact absurd hp (List.not_mem_nil p)
  | cons p ps ih =>
    intro s hall hex
    by_cases hm : jsIncludes msg p
    · have hk : keyFn p ∈ s := hall p (List.mem_cons_self p ps) hm
      simp only [suppressLoop]
      rw [if_pos hm, if_pos hk]
    · simp only [suppressLoop]
      rw [if_neg hm]
      refine ih s (fun q hq => hall q (List.mem_cons_of_mem p hq)) ?_
      obtain ⟨q, hq, hmq⟩ := hex
      rcases List.mem_cons.mp hq with rfl | hq'
      · exact absurd hmq (by simp [hm])
      · exact ⟨q, hq', hmq⟩

/-- The twelve suppression keys of the freshly constructed manager are
pairwise distinct. -/
theorem initSuppressPatterns_keys_nodup : (initSuppressPatterns.map errorKey).Nodup := by
  decide

/-! ## The C5 and C6 claims -/

/-- C5: from the freshly constructed manager, an error message containing
one of the suppress patterns is passed through to the original
`console.error` on its first occurrence; the identical message is dropped
on its second occurrence, and that second call changes no state (so every
later occurrence is dropped too); and any message — in particular one
containing `"Error"` — is passed through verbatim on its first
occurrence. -/
theorem consoleError_suppression (msg : String)
    (h : ∃ p ∈ CMState.initial.suppressPatterns, jsIncludes msg p = true) :
    (consoleError CMState.initial msg).2 = true ∧
    (consoleError (consoleError CMState.initial msg).1 msg).2 = false ∧
    (consoleError (consoleError CMState.initial msg).1 msg).1
        = (consoleError CMState.initial msg).1 ∧
    (∀ m : String, jsIncludes m "Error" = true → (consoleError CMState.initial m).2 = true) := by
  have hfresh := suppressLoop_fresh errorKey msg initSuppressPatterns []
    initSuppressPatterns_keys_nodup (fun p _ => List.not_mem_nil _)
  have hsup := suppressLoop_suppressed errorKey msg initSuppressPatterns
    (suppressLoop errorKey [] initSuppressPatterns msg).1 hfresh.2 h
  refine ⟨hfresh.1, ?_, ?_, ?_⟩
  · show (suppressLoop errorKey
      (suppressLoop errorKey [] initSuppressPatterns msg).1 initSuppressPatterns msg).2 = false
    rw [hsup]
  · show ({ (consoleError CMState.initial msg).1 with suppressedErrors :=
        (suppressLoop errorKey
          (suppressLoop errorKey [] initSuppressPatterns msg).1 initSuppressPatterns msg).1 }
      : CMState) = (consoleError CMState.initial msg).1
    rw [hsup]
    rfl
  · intro m _
    exact (suppressLoop_fresh errorKey m initSuppressPatterns []
      initSuppressPatterns_keys_nodup (fun p _ => List.not_mem_nil _)).1

/-- Witness for C5 at a message matching the `'Tracking Prevention'`
pattern. -/
theorem consoleError_suppression_witness :
    (consoleError CMState.initial "Tracking Prevention blocked access to storage").2 = true ∧
    (consoleError (consoleError CMState.initial "Tracking Prevention blocked access to storage").1
      "Tracking Prevention blocked access to storage").2 = false ∧
    (consoleError CMState.initial "Error getting bookings: permission denied").2 = true := by
  have hmem : ∃ p ∈ CMState.initial.suppressPatterns,
      jsIncludes "Tracking Prevention blocked access to storage" p = true := by decide
  have hthm := consoleError_suppression "Tracking Prevention blocked access to storage" hmem
  exact ⟨hthm.1, hthm.2.1, hthm.2.2.2 "Error getting bookings: permission denied" (by decide)⟩

/-- C6: `enableVerboseMode` clears the recorded suppression keys and
empties the suppress-pattern list, after which the `console.error` and
`console.warn` overrides pass every message through unchanged and leave
the state fixed — no pattern-based filtering happens for the rest of the
session. -/
theorem enableVerboseMode_disablesFiltering (st : CMState) :
    (enableVerboseMode st).suppressedErrors = [] ∧
    (enableVerboseMode st).suppressPatterns = [] ∧
    (∀ msg, consoleError (enableVerboseMode st) msg = (enableVerboseMode st, true)) ∧
    (∀ msg, consoleWarn (enableVerboseMode st) msg = (enableVerboseMode st, true)) :=
  ⟨rfl, rfl, fun _ => rfl, fun _ => rfl⟩
